import Mathlib

/-!
Verification of the execution engine of an LLM-orchestration server.

The development shallowly embeds the JavaScript source of the engine:

* `replaceVariables` from `routes/execute.js` (variable substitution over the
  accumulated context, with the fallback that appends the most recent
  response);
* `cleanCorruptedText` and `processResponse` from the LLM communication
  service (response-shape normalization and output sanitization);
* the whole-chain retry skeleton of `sendPrompt`;
* the run coordinator `executeWorkflowAsync` and the start route, modelled as
  pure functions from a gateway oracle to the emitted event trace, the stored
  result rows and the run-status updates.

JavaScript numbers are modelled as `Nat`/`ℚ` with an explicit `nan` marker
where the source can produce `NaN`; fallible code returns `Except`/`Option`.
Scanning functions that a regex engine performs are written with an explicit
fuel argument (the input length always suffices) so that every definition is
structurally recursive and computable.
-/

namespace LLMOrch

/-- One accumulated response in the execution context: an entry of
`context.responses` pushed by `executeWorkflowAsync` in `routes/execute.js`. -/
structure RespEntry where
  payloadId : Nat
  payloadName : String
  content : String
deriving DecidableEq

/-- First entry of the context whose `payloadName` equals the variable name;
models the `for (const response of context.responses)` loop inside the
replacement callback of `replaceVariables`. -/
def lookupVar : List RespEntry → String → Option String
  | [], _ => none
  | e :: rest, v => if e.payloadName = v then some e.content else lookupVar rest v

/-- Fuel-indexed scanner modelling the global regex replace
`prompt.replace(/\{\{([^\x7d]+)\}\}/g, ...)` in `replaceVariables`.
At each position it attempts to match an opening brace pair, a non-empty run
of characters other than the closing brace, and a closing brace pair; on a
match the captured name is looked up in the context (first entry wins) and
the replacement — or the untouched matched text when the lookup fails — is
emitted without rescanning; otherwise the current character is emitted and
scanning resumes one position later.  Fuel bounds the number of scanning
steps; the input length always suffices because every step consumes at least
one character. -/
def substVarsF (ctx : List RespEntry) : Nat → List Char → List Char
  | 0, l => l
  | fuel + 1, l =>
    match l with
    | [] => []
    | c :: rest =>
      if c = '{' ∧ rest.head? = some '{' then
        let rest2 := rest.tail
        let name := rest2.takeWhile (fun x => x != '}')
        let after := rest2.dropWhile (fun x => x != '}')
        if name ≠ [] ∧ after.take 2 = ['}', '}'] then
          (match lookupVar ctx (String.mk name) with
            | some t => t.toList
            | none => '{' :: '{' :: (name ++ ['}', '}'])) ++
            substVarsF ctx fuel (after.drop 2)
        else c :: substVarsF ctx fuel rest
      else c :: substVarsF ctx fuel rest

/-- Substitution phase of `replaceVariables` on strings. -/
def substVars (ctx : List RespEntry) (prompt : String) : String :=
  String.mk (substVarsF ctx prompt.toList.length prompt.toList)

/-- Model of `replaceVariables(prompt, context)` from `routes/execute.js`:
the regex substitution phase, followed by the fallback that appends the most
recent response under a labeled separator when the substitution changed
nothing and the context is non-empty. -/
def replaceVariables (prompt : String) (ctx : List RespEntry) : String :=
  let processed := substVars ctx prompt
  if h : processed = prompt ∧ ctx ≠ [] then
    processed ++ "\n\nPrevious response:\n" ++ (ctx.getLast h.2).content
  else
    processed

/-- Template chunk: a literal piece of text or a variable reference that the
source renders as a doubly-braced name. -/
inductive Chunk where
  | lit (s : String)
  | var (s : String)
deriving DecidableEq

/-- Well-formedness of a chunk for the general substitution theorem: literal
text carries no brace characters, and a variable name is non-empty and
carries no brace characters. -/
def goodChunk : Chunk → Bool
  | .lit s => s.toList.all (fun c => c != '{' && c != '}')
  | .var n => !n.toList.isEmpty && n.toList.all (fun c => c != '{' && c != '}')

/-- Characters of a chunk as they appear in the raw template. -/
def renderChunk : Chunk → List Char
  | .lit s => s.toList
  | .var n => '{' :: '{' :: (n.toList ++ ['}', '}'])

/-- Raw template assembled from a list of chunks. -/
def renderChunks (cs : List Chunk) : List Char := cs.flatMap renderChunk

/-- Intended meaning of substituting one chunk: literals survive, a variable
is replaced by the first matching context entry, and a variable that matches
no entry is left untouched with its braces. -/
def substChunk (ctx : List RespEntry) : Chunk → List Char
  | .lit s => s.toList
  | .var n =>
    match lookupVar ctx n with
    | some t => t.toList
    | none => '{' :: '{' :: (n.toList ++ ['}', '}'])

/-- Intended meaning of substituting a chunked template. -/
def substChunks (ctx : List RespEntry) (cs : List Chunk) : List Char :=
  cs.flatMap (substChunk ctx)

/-- Rebuilding a string from its character list is the identity. -/
theorem string_mk_toList (s : String) : String.mk s.toList = s := rfl

/-- Taking while a predicate holds skips over a block where it holds
everywhere. -/
theorem takeWhile_all_append {p : Char → Bool} :
    ∀ (n l : List Char), (∀ c ∈ n, p c = true) →
      (n ++ l).takeWhile p = n ++ l.takeWhile p := by
  intro n
  induction n with
  | nil => intro l _; simp
  | cons c n ih =>
    intro l h
    have hc : p c = true := h c (by simp)
    simp only [List.cons_append, List.takeWhile_cons, hc, if_true]
    rw [ih l (fun d hd => h d (by simp [hd]))]

/-- Dropping while a predicate holds skips over a block where it holds
everywhere. -/
theorem dropWhile_all_append {p : Char → Bool} :
    ∀ (n l : List Char), (∀ c ∈ n, p c = true) →
      (n ++ l).dropWhile p = l.dropWhile p := by
  intro n
  induction n with
  | nil => intro l _; simp
  | cons c n ih =>
    intro l h
    have hc : p c = true := h c (by simp)
    simp only [List.cons_append, List.dropWhile_cons, hc, if_true]
    exact ih l (fun d hd => h d (by simp [hd]))

/-- Dropping a matched block never lengthens a list. -/
theorem dropWhile_length_le (p : Char → Bool) :
    ∀ l : List Char, (l.dropWhile p).length ≤ l.length := by
  intro l
  induction l with
  | nil => simp
  | cons c l ih =>
    by_cases hc : p c = true
    · simp only [List.dropWhile_cons, hc, if_true, List.length_cons]
      omega
    · simp [List.dropWhile_cons, hc]

/-- Scanning is insensitive to the exact amount of fuel, as long as the fuel
covers the input length. -/
theorem substVarsF_fuel (ctx : List RespEntry) :
    ∀ f g l, l.length ≤ f → l.length ≤ g →
      substVarsF ctx f l = substVarsF ctx g l := by
  intro f
  induction f with
  | zero =>
    intro g l hf _
    have hl : l = [] := List.eq_nil_of_length_eq_zero (Nat.le_zero.mp hf)
    subst hl
    cases g <;> rfl
  | succ f ih =>
    intro g l hf hg
    cases l with
    | nil => cases g <;> rfl
    | cons c rest =>
      cases g with
      | zero => simp at hg
      | succ g =>
        simp only [List.length_cons] at hf hg
        have hf := Nat.le_of_succ_le_succ hf
        have hg := Nat.le_of_succ_le_succ hg
        have hdrop : ((rest.tail.dropWhile (fun x => x != '}')).drop 2).length ≤ rest.length := by
          have h1 := dropWhile_length_le (fun x => x != '}') rest.tail
          have h2 : rest.tail.length ≤ rest.length := by
            cases rest <;> simp
          simp only [List.length_drop]
          omega
        simp only [substVarsF]
        by_cases h1 : c = '{' ∧ rest.head? = some '{'
        · rw [if_pos h1, if_pos h1]
          by_cases h2 : rest.tail.takeWhile (fun x => x != '}') ≠ [] ∧
              ((rest.tail.dropWhile (fun x => x != '}')).take 2) = ['}', '}']
          · rw [if_pos h2, if_pos h2]
            congr 1
            exact ih g _ (le_trans hdrop hf) (le_trans hdrop hg)
          · rw [if_neg h2, if_neg h2]
            rw [ih g rest hf hg]
        · rw [if_neg h1, if_neg h1]
          rw [ih g rest hf hg]

/-- Scanning passes over a brace-free block unchanged. -/
theorem substVarsF_append_lit (ctx : List RespEntry) :
    ∀ (l₁ l₂ : List Char) (f : Nat), (∀ c ∈ l₁, c ≠ '{') →
      l₁.length + l₂.length ≤ f →
      substVarsF ctx f (l₁ ++ l₂) = l₁ ++ substVarsF ctx (f - l₁.length) l₂ := by
  intro l₁
  induction l₁ with
  | nil => intro l₂ f _ _; simp
  | cons c l₁ ih =>
    intro l₂ f h hf
    cases f with
    | zero => simp at hf
    | succ f =>
      have hc : c ≠ '{' := h c (by simp)
      have hcond : ¬(c = '{' ∧ (l₁ ++ l₂).head? = some '{') := by
        intro hcon
        exact hc hcon.1
      have hlen : l₁.length + l₂.length ≤ f := by
        simp only [List.length_cons] at hf
        omega
      simp only [List.cons_append, substVarsF, hcond, if_false]
      rw [ih l₂ f (fun d hd => h d (by simp [hd])) hlen]
      simp only [List.length_cons, Nat.succ_sub_succ]

/-- Scanning consumes one doubly-braced variable reference whose name is
non-empty and brace-free, and substitutes it according to the context. -/
theorem substVarsF_var_head (ctx : List RespEntry) (n l₂ : List Char) (f : Nat)
    (hn : n ≠ []) (hnb : ∀ c ∈ n, c ≠ '}')
    (hf : n.length + l₂.length + 4 ≤ f) :
    substVarsF ctx f ('{' :: '{' :: (n ++ '}' :: '}' :: l₂)) =
      (match lookupVar ctx (String.mk n) with
        | some t => t.toList
        | none => '{' :: '{' :: (n ++ ['}', '}'])) ++
        substVarsF ctx (f - 1) l₂ := by
  cases f with
  | zero => omega
  | succ f =>
    have hall : ∀ c ∈ n, (fun x => x != '}') c = true := by
      intro c hc
      simpa using hnb c hc
    have htake : List.takeWhile (fun x => x != '}') (n ++ '}' :: '}' :: l₂) = n := by
      rw [takeWhile_all_append n _ hall]
      simp
    have hdrop : List.dropWhile (fun x => x != '}') (n ++ '}' :: '}' :: l₂) =
        '}' :: '}' :: l₂ := by
      rw [dropWhile_all_append n _ hall]
      simp
    simp only [substVarsF, List.tail_cons, htake, hdrop]
    rw [if_pos (⟨trivial, rfl⟩ : True ∧ ('{' :: (n ++ '}' :: '}' :: l₂)).head? = some '{')]
    rw [if_pos ⟨hn, rfl⟩]
    simp only [List.drop_succ_cons, List.drop_zero, Nat.add_sub_cancel]

/-- Substituting a well-formed chunked template replaces exactly the matched
variable references and leaves everything else untouched. -/
theorem substVarsF_chunks (ctx : List RespEntry) :
    ∀ (cs : List Chunk) (f : Nat), (∀ ch ∈ cs, goodChunk ch = true) →
      (renderChunks cs).length ≤ f →
      substVarsF ctx f (renderChunks cs) = substChunks ctx cs := by
  intro cs
  induction cs with
  | nil =>
    intro f _ _
    cases f <;> rfl
  | cons ch cs ih =>
    intro f hgood hf
    have hch : goodChunk ch = true := hgood ch (by simp)
    have hcs : ∀ c ∈ cs, goodChunk c = true := fun c hc => hgood c (by simp [hc])
    cases ch with
    | lit s =>
      have hlit : ∀ c ∈ s.toList, c ≠ '{' := by
        intro c hc
        have := List.all_eq_true.mp hch c hc
        simp at this
        exact this.1
      have hrender : renderChunks (Chunk.lit s :: cs) = s.toList ++ renderChunks cs := by
        simp [renderChunks, renderChunk]
      rw [hrender] at hf ⊢
      have hf' : s.toList.length + (renderChunks cs).length ≤ f := by
        simpa only [List.length_append] using hf
      rw [substVarsF_append_lit ctx s.toList (renderChunks cs) f hlit hf']
      rw [ih (f - s.toList.length) hcs (by omega)]
      simp [substChunks, substChunk]
    | var n =>
      have hne : n.toList ≠ [] := by
        simp only [goodChunk, Bool.and_eq_true] at hch
        simpa using hch.1
      have hnb : ∀ c ∈ n.toList, c ≠ '}' := by
        intro c hc
        simp only [goodChunk, Bool.and_eq_true] at hch
        have := List.all_eq_true.mp hch.2 c hc
        simp at this
        exact this.2
      have hrender : renderChunks (Chunk.var n :: cs) =
          '{' :: '{' :: (n.toList ++ '}' :: '}' :: renderChunks cs) := by
        simp [renderChunks, renderChunk]
      rw [hrender] at hf ⊢
      have hflen : n.toList.length + (renderChunks cs).length + 4 ≤ f := by
        simp only [List.length_cons, List.length_append] at hf
        omega
      rw [substVarsF_var_head ctx n.toList (renderChunks cs) f hne hnb hflen]
      rw [substVarsF_fuel ctx (f - 1) (renderChunks cs).length (renderChunks cs)
        (by omega) (le_refl _)]
      rw [ih (renderChunks cs).length hcs (le_refl _)]
      simp only [substChunks, List.flatMap_cons, substChunk, string_mk_toList]

/-- Fallback rule of `replaceVariables`: when the substitution phase leaves
the template unchanged and the context is non-empty, the most recent entry's
text is appended under the labeled separator. -/
theorem replaceVariables_fallback (prompt : String) (ctx : List RespEntry)
    (h1 : substVars ctx prompt = prompt) (h2 : ctx ≠ []) :
    replaceVariables prompt ctx =
      prompt ++ "\n\nPrevious response:\n" ++ (ctx.getLast h2).content := by
  simp only [replaceVariables]
  rw [dif_pos ⟨h1, h2⟩]
  exact congrArg
    (fun s => s ++ "\n\nPrevious response:\n" ++ (ctx.getLast h2).content) h1

/-- C3: when the substitution phase leaves the template unchanged and the
accumulated response list is non-empty, `replaceVariables` returns the
template with the most recent entry's text appended under the labeled
separator; in particular substituting `"Hello"` against a context holding one
entry named `"s1"` with text `"World"` yields exactly
`"Hello\n\nPrevious response:\nWorld"`. -/
theorem C3_fallback_append :
    (∀ (prompt : String) (ctx : List RespEntry)
        (h1 : substVars ctx prompt = prompt) (h2 : ctx ≠ []),
        replaceVariables prompt ctx =
          prompt ++ "\n\nPrevious response:\n" ++ (ctx.getLast h2).content)
  ∧ replaceVariables "Hello" [⟨1, "s1", "World"⟩] =
      "Hello\n\nPrevious response:\nWorld" := by
  constructor
  · exact replaceVariables_fallback
  · decide

/-- Witness for C3 at a concrete template and context. -/
theorem C3_fallback_append_witness :
    replaceVariables "Hi" [⟨2, "a", "B"⟩] = "Hi\n\nPrevious response:\nB" :=
  C3_fallback_append.1 "Hi" [⟨2, "a", "B"⟩] (by decide) (by decide)

/-- C4: substitution replaces every doubly-braced variable whose name matches
an accumulated entry with that entry's text and leaves non-matching variable
tokens unchanged (stated for every well-formed chunked template); in
particular `"Analyze: {{s1}}"` against an entry named `"s1"` with text `"X"`
yields exactly `"Analyze: X"`, and a template that is a single unknown
variable is left unchanged with its braces (the substitution phase for every
context lacking the name, and the full function for an empty context). -/
theorem C4_substitution :
    (∀ (cs : List Chunk) (ctx : List RespEntry),
        (∀ ch ∈ cs, goodChunk ch = true) →
        substVarsF ctx (renderChunks cs).length (renderChunks cs) =
          substChunks ctx cs)
  ∧ replaceVariables "Analyze: {{s1}}" [⟨1, "s1", "X"⟩] = "Analyze: X"
  ∧ (∀ ctx : List RespEntry, lookupVar ctx "unknown" = none →
        substVars ctx "{{unknown}}" = "{{unknown}}")
  ∧ replaceVariables "{{unknown}}" [] = "{{unknown}}" := by
  refine ⟨?_, ?_, ?_, ?_⟩
  · intro cs ctx hgood
    exact substVarsF_chunks ctx cs _ hgood (le_refl _)
  · decide
  · intro ctx hl
    have hr : "{{unknown}}".toList = renderChunks [Chunk.var "unknown"] := by
      decide
    simp only [substVars]
    rw [hr]
    rw [substVarsF_chunks ctx [Chunk.var "unknown"] _ (by decide) (le_refl _)]
    simp only [substChunks, substChunk, List.flatMap_cons, List.flatMap_nil, hl]
    decide
  · decide

/-- Witness for C4 at a concrete chunked template and at an unknown-variable
template against a context lacking that name. -/
theorem C4_substitution_witness :
    substVarsF [⟨1, "s1", "Y"⟩] (renderChunks [Chunk.lit "Hi ", Chunk.var "s1"]).length
        (renderChunks [Chunk.lit "Hi ", Chunk.var "s1"]) =
      substChunks [⟨1, "s1", "Y"⟩] [Chunk.lit "Hi ", Chunk.var "s1"]
  ∧ substVars [⟨1, "s1", "Y"⟩] "{{unknown}}" = "{{unknown}}" :=
  ⟨C4_substitution.1 _ _ (by decide), C4_substitution.2.2.1 _ (by decide)⟩

/-- C10: with two accumulated entries sharing the same name, substituting the
doubly-braced name uses the earliest entry's text, while the fallback-append
rule uses the most recent entry's text. -/
theorem C10_duplicate_resolution :
    (∀ (i₁ i₂ : Nat) (n t₁ t₂ : String) (ctxr : List RespEntry),
        goodChunk (Chunk.var n) = true →
        substVars (⟨i₁, n, t₁⟩ :: ⟨i₂, n, t₂⟩ :: ctxr)
          ("\x7b\x7b" ++ n ++ "\x7d\x7d") = t₁)
  ∧ (∀ (prompt : String) (i₁ i₂ : Nat) (n t₁ t₂ : String),
        substVars [⟨i₁, n, t₁⟩, ⟨i₂, n, t₂⟩] prompt = prompt →
        replaceVariables prompt [⟨i₁, n, t₁⟩, ⟨i₂, n, t₂⟩] =
          prompt ++ "\n\nPrevious response:\n" ++ t₂) := by
  constructor
  · intro i₁ i₂ n t₁ t₂ ctxr hg
    have hr : ("\x7b\x7b" ++ n ++ "\x7d\x7d").toList = renderChunks [Chunk.var n] := by
      simp [String.toList, String.data_append, renderChunks, renderChunk]
    simp only [substVars]
    rw [hr]
    rw [substVarsF_chunks _ [Chunk.var n] _ (by simpa using hg) (le_refl _)]
    simp [substChunks, substChunk, lookupVar, string_mk_toList]
  · intro prompt i₁ i₂ n t₁ t₂ h
    have h2 : ([⟨i₁, n, t₁⟩, ⟨i₂, n, t₂⟩] : List RespEntry) ≠ [] := by simp
    rw [replaceVariables_fallback prompt _ h h2]
    simp [List.getLast]

/-- Witness for C10 at a concrete duplicate-name context. -/
theorem C10_duplicate_resolution_witness :
    substVars [⟨1, "s1", "A"⟩, ⟨2, "s1", "B"⟩] "{{s1}}" = "A"
  ∧ replaceVariables "Hi" [⟨1, "s1", "A"⟩, ⟨2, "s1", "B"⟩] =
      "Hi\n\nPrevious response:\nB" :=
  ⟨C10_duplicate_resolution.1 1 2 "s1" "A" "B" [] (by decide),
   C10_duplicate_resolution.2 "Hi" 1 2 "s1" "A" "B" (by decide)⟩

/-- Whitespace class of the JavaScript regex `\s` and of `String.prototype.trim`,
restricted to the code points the cleaning pipeline can actually see. -/
def jsWs (c : Char) : Bool :=
  c.toNat = 9 || c.toNat = 10 || c.toNat = 11 || c.toNat = 12 || c.toNat = 13 ||
  c.toNat = 32 || c.toNat = 160 || c.toNat = 0x1680 ||
  (0x2000 ≤ c.toNat && c.toNat ≤ 0x200a) ||
  c.toNat = 0x2028 || c.toNat = 0x2029 || c.toNat = 0x202f ||
  c.toNat = 0x205f || c.toNat = 0x3000 || c.toNat = 0xfeff

/-- Printable ASCII range of the cleaning regex `[\x20-\x7E]`. -/
def printableCh (c : Char) : Bool :=
  32 ≤ c.toNat && c.toNat ≤ 126

/-- Decides whether `needle` occurs as a contiguous substring of `haystack`;
models `String.prototype.includes`. -/
def containsSub (needle : List Char) : List Char → Bool
  | [] => needle.isEmpty
  | c :: rest => needle.isPrefixOf (c :: rest) || containsSub needle rest

/-- Characters of the corruption marker token. -/
def unkMarker : List Char := "UNK_BYTE".toList

/-- Characters of the underscore-suffixed marker prefix that the cleaning
regexes actually strip. -/
def unkTag : List Char := "UNK_BYTE_".toList

/-- Fuel-indexed scanner modelling the regex replace of bracketed markers
`text.replace(/\[UNK_BYTE_[^\]]*\]/g, ' ')` in `cleanCorruptedText`: an
opening bracket followed by the underscore-suffixed marker, any run of
non-bracket characters and a closing bracket is replaced by one space;
where no such pattern starts, the character is kept and scanning resumes
one position later. -/
def removeBracketF : Nat → List Char → List Char
  | 0, l => l
  | _ + 1, [] => []
  | fuel + 1, c :: rest =>
    if c = '[' ∧ unkTag.isPrefixOf rest then
      let afterTag := rest.drop 9
      let after := afterTag.dropWhile (fun x => x != ']')
      match after with
      | ']' :: rest2 => ' ' :: removeBracketF fuel rest2
      | _ => c :: removeBracketF fuel rest
    else c :: removeBracketF fuel rest

/-- Fuel-indexed scanner modelling the regex replace of bare underscore
markers `text.replace(/UNK_BYTE_[^\s]*/g, ' ')`: the underscore-suffixed
marker and the run of non-whitespace characters after it are replaced by one
space. -/
def removeUnderF : Nat → List Char → List Char
  | 0, l => l
  | _ + 1, [] => []
  | fuel + 1, c :: rest =>
    if unkTag.isPrefixOf (c :: rest) then
      ' ' :: removeUnderF fuel (((c :: rest).drop 9).dropWhile (fun x => !jsWs x))
    else c :: removeUnderF fuel rest

/-- Replacement of every character outside printable ASCII (other than
newline and tab) by a space: `text.replace(/[^\x20-\x7E\n\t]/g, ' ')`. -/
def stripNonPrintable (l : List Char) : List Char :=
  l.map (fun c => if printableCh c || c == '\n' || c == '\t' then c else ' ')

/-- Collapse of every maximal whitespace run into a single space:
`text.replace(/\s+/g, ' ')`. -/
def collapseWs : List Char → List Char
  | [] => []
  | [c] => if jsWs c then [' '] else [c]
  | a :: b :: rest =>
    if jsWs a && jsWs b then collapseWs (b :: rest)
    else if jsWs a then ' ' :: collapseWs (b :: rest)
    else a :: collapseWs (b :: rest)

/-- Whitespace trim at both ends, modelling `String.prototype.trim`. -/
def jsTrim (l : List Char) : List Char :=
  ((l.dropWhile jsWs).reverse.dropWhile jsWs).reverse

/-- Count of control characters other than newline and tab; the corruption
heuristic compares it against a tenth of the length. -/
def nonPrintCount (l : List Char) : Nat :=
  (l.filter (fun c => c.toNat < 32 && c != '\n' && c != '\t')).length

/-- Corruption test of `cleanCorruptedText`: a bracketed or bare marker
occurrence, or control characters exceeding a tenth of the length (the
source compares against the float `0.1`; the comparison is modelled
exactly on integers). -/
def isCorrupted (l : List Char) : Bool :=
  containsSub ("[UNK_BYTE".toList) l || containsSub unkMarker l ||
  (!l.isEmpty && decide (l.length < 10 * nonPrintCount l))

/-- Sentinel error text returned when cleaning leaves nothing meaningful. -/
def sentinelText : String :=
  "[Error: The model returned corrupted or binary data. Please try different model settings or a different model format.]"

/-- Character-level model of `cleanCorruptedText(text)` from the LLM service:
empty text is returned as-is (it is falsy); text that is not flagged
corrupted is returned unchanged; otherwise bracketed markers, underscore
markers and non-printable characters are removed, whitespace is collapsed
and trimmed, and the result is returned when longer than three characters,
the sentinel error text otherwise. -/
def cleanList (l : List Char) : List Char :=
  if l.isEmpty then []
  else if !isCorrupted l then l
  else
    let cleaned := jsTrim (collapseWs (stripNonPrintable
      (removeUnderF (removeBracketF l.length l).length (removeBracketF l.length l))))
    if 3 < cleaned.length then cleaned else sentinelText.toList

/-- String-level wrapper of `cleanCorruptedText`. -/
def cleanCorruptedText (s : String) : String :=
  String.mk (cleanList s.toList)

/-- JavaScript number possibly holding `NaN`: the sum
`prompt_tokens + completion_tokens` in the first normalization branch is
`NaN` whenever one summand is `undefined`. -/
inductive JsNum where
  | nan
  | val (n : Nat)
deriving DecidableEq

/-- JavaScript addition of two possibly-missing numbers: any missing summand
makes the sum `NaN`. -/
def jsAdd : Option Nat → Option Nat → JsNum
  | some a, some b => .val (a + b)
  | _, _ => .nan

/-- Defaulting `x || d` for a possibly-missing JavaScript number: absent and
zero (falsy) values both give the default. -/
def jsOrNat (o : Option Nat) (d : Nat) : Nat :=
  match o with
  | some n => if n = 0 then d else n
  | none => d

/-- Defaulting `x || d` for a possibly-missing JavaScript string: absent and
empty (falsy) values both give the default. -/
def jsOrStr (o : Option String) (d : String) : String :=
  match o with
  | some s => if s = "" then d else s
  | none => d

/-- Element of the `results` array of the first recognized response shape. -/
structure KResult where
  text : Option String
  prompt_tokens : Option Nat
  completion_tokens : Option Nat
  finish_reason : Option String
deriving DecidableEq

/-- Element of the `generations` array of the second recognized shape. -/
structure Generation where
  text : Option String
  finish_reason : Option String
deriving DecidableEq

/-- Billed-unit counts nested under `meta` in the second shape. -/
structure BilledUnits where
  input_tokens : Option Nat
  output_tokens : Option Nat
deriving DecidableEq

/-- The `meta` object of the second shape. -/
structure RMeta where
  billed_units : Option BilledUnits
deriving DecidableEq

/-- The `usage` object of the chat and completion shapes. -/
structure Usage where
  total_tokens : Option Nat
  prompt_tokens : Option Nat
  completion_tokens : Option Nat
deriving DecidableEq

/-- The nested `message` object of a chat choice. -/
structure ChatMessage where
  content : Option String
deriving DecidableEq

/-- Element of the `choices` array of the chat and completion shapes. -/
structure Choice where
  message : Option ChatMessage
  text : Option String
  finish_reason : Option String
deriving DecidableEq

/-- Raw backend response object, with every field that the normalizer
inspects modelled as optional. -/
structure LLMResponse where
  results : Option (List KResult)
  generations : Option (List Generation)
  meta : Option RMeta
  choices : Option (List Choice)
  usage : Option Usage
  result : Option String
  tokens : Option Nat
  prompt_tokens : Option Nat
  completion_tokens : Option Nat
  finish_reason : Option String
deriving DecidableEq

/-- Normalized metadata of a processed response. -/
structure ProcessedMeta where
  tokens : JsNum
  promptTokens : Nat
  completionTokens : Nat
  finishReason : String
  responseType : Option String
deriving DecidableEq

/-- Normalized processed response. -/
structure ProcessedResponse where
  text : String
  metadata : ProcessedMeta
deriving DecidableEq

/-- Combined token count of the second shape:
`(meta?.billed_units?.input_tokens + meta?.billed_units?.output_tokens) || 0`;
a missing summand makes the sum `NaN`, which the `|| 0` turns into `0`. -/
def commandRTokens (m : Option RMeta) : Nat :=
  match m with
  | some mv =>
    match mv.billed_units with
    | some bu =>
      match bu.input_tokens, bu.output_tokens with
      | some i, some o => i + o
      | _, _ => 0
    | none => 0
  | none => 0

/-- Model of `processResponse(response)` from the LLM service: the five
recognized shapes are dispatched in source order (results array, generations
array, chat-message choice, text choice, flat result field); the text of the
four array shapes passes through `cleanCorruptedText` while the flat result
is returned verbatim; an unrecognized shape is an error. -/
def processResponse (r : LLMResponse) : Except String ProcessedResponse :=
  match r.results with
  | some (res :: _) =>
    .ok { text := cleanCorruptedText (jsOrStr res.text ""),
          metadata :=
            { tokens := jsAdd res.prompt_tokens res.completion_tokens,
              promptTokens := jsOrNat res.prompt_tokens 0,
              completionTokens := jsOrNat res.completion_tokens 0,
              finishReason := jsOrStr res.finish_reason "unknown",
              responseType := none } }
  | _ =>
    match r.generations with
    | some (g :: _) =>
      .ok { text := cleanCorruptedText (jsOrStr g.text ""),
            metadata :=
              { tokens := .val (commandRTokens r.meta),
                promptTokens :=
                  jsOrNat (r.meta.bind (fun m => m.billed_units.bind (·.input_tokens))) 0,
                completionTokens :=
                  jsOrNat (r.meta.bind (fun m => m.billed_units.bind (·.output_tokens))) 0,
                finishReason := jsOrStr g.finish_reason "unknown",
                responseType := some "command-r" } }
    | _ =>
      match r.choices with
      | some (c :: _) =>
        match c.message with
        | some msg =>
          .ok { text := cleanCorruptedText (jsOrStr msg.content ""),
                metadata :=
                  { tokens := .val (jsOrNat (r.usage.bind (·.total_tokens)) 0),
                    promptTokens := jsOrNat (r.usage.bind (·.prompt_tokens)) 0,
                    completionTokens := jsOrNat (r.usage.bind (·.completion_tokens)) 0,
                    finishReason := jsOrStr c.finish_reason "unknown",
                    responseType := some "chat" } }
        | none =>
          .ok { text := cleanCorruptedText (jsOrStr c.text ""),
                metadata :=
                  { tokens := .val (jsOrNat (r.usage.bind (·.total_tokens)) 0),
                    promptTokens := jsOrNat (r.usage.bind (·.prompt_tokens)) 0,
                    completionTokens := jsOrNat (r.usage.bind (·.completion_tokens)) 0,
                    finishReason := jsOrStr c.finish_reason "unknown",
                    responseType := some "completion" } }
      | _ =>
        match r.result with
        | some s =>
          if s = "" then .error "Unsupported LLM response format"
          else
            .ok { text := s,
                  metadata :=
                    { tokens := .val (jsOrNat r.tokens 0),
                      promptTokens := jsOrNat r.prompt_tokens 0,
                      completionTokens := jsOrNat r.completion_tokens 0,
                      finishReason := jsOrStr r.finish_reason "unknown",
                      responseType := none } }
        | none => .error "Unsupported LLM response format"

/-- The five recognized response shapes, in dispatch order. -/
inductive Shape where
  | koboldResults
  | commandR
  | chat
  | completion
  | flat
deriving DecidableEq

/-- Shape dispatch of `processResponse`, following the source's condition
order; `none` means the response matches no recognized shape. -/
def recognizedShape (r : LLMResponse) : Option Shape :=
  match r.results with
  | some (_ :: _) => some .koboldResults
  | _ =>
    match r.generations with
    | some (_ :: _) => some .commandR
    | _ =>
      match r.choices with
      | some (c :: _) => if c.message.isSome then some .chat else some .completion
      | _ =>
        match r.result with
        | some s => if s = "" then none else some .flat
        | none => none

/-- The `responseType` tag the normalizer attaches to each shape. -/
def rType : Shape → Option String
  | .koboldResults => none
  | .commandR => some "command-r"
  | .chat => some "chat"
  | .completion => some "completion"
  | .flat => none

/-- All optional count and reason fields that feed the normalized metadata
are absent. -/
def bareMeta (r : LLMResponse) : Bool :=
  (match r.results with
   | some (res :: _) =>
     res.prompt_tokens.isNone && res.completion_tokens.isNone && res.finish_reason.isNone
   | _ => true) &&
  (match r.generations with
   | some (g :: _) => g.finish_reason.isNone
   | _ => true) &&
  (match r.choices with
   | some (c :: _) => c.finish_reason.isNone
   | _ => true) &&
  r.meta.isNone && r.usage.isNone && r.tokens.isNone &&
  r.prompt_tokens.isNone && r.completion_tokens.isNone && r.finish_reason.isNone

/-- C1 (amended): a response matching none of the five shapes is rejected
with an error; a response matching one of the five shapes with every
optional count and reason field absent normalizes with `promptTokens` and
`completionTokens` defaulting to `0` and `finishReason` to `"unknown"`, but
the combined `tokens` field of the first (results-array) shape is the raw
sum of the two absent counts and is therefore `NaN`, not `0`; the other four
shapes default `tokens` to `0`. -/
theorem C1_normalization_defaults : ∀ r : LLMResponse,
    (recognizedShape r = none →
      processResponse r = .error "Unsupported LLM response format")
  ∧ (∀ s, recognizedShape r = some s → bareMeta r = true →
      ∃ t, processResponse r = .ok ⟨t,
        { tokens := if s = Shape.koboldResults then JsNum.nan else JsNum.val 0,
          promptTokens := 0, completionTokens := 0,
          finishReason := "unknown", responseType := rType s }⟩) := by
  intro r
  obtain ⟨results, generations, meta, choices, usage, result, tk, ptk, ctk, fr⟩ := r
  constructor
  · intro hnone
    rcases results with _ | ⟨_ | ⟨res, rl⟩⟩ <;>
    rcases generations with _ | ⟨_ | ⟨g, gl⟩⟩ <;>
    rcases choices with _ | ⟨_ | ⟨c, cl⟩⟩ <;>
    rcases result with _ | s <;>
    simp_all [recognizedShape, processResponse] <;>
    split_ifs at hnone ⊢ <;> simp_all
  · intro s hs hbare
    rcases results with _ | ⟨_ | ⟨res, rl⟩⟩ <;>
    rcases generations with _ | ⟨_ | ⟨g, gl⟩⟩ <;>
    rcases choices with _ | ⟨_ | ⟨c, cl⟩⟩ <;>
    rcases result with _ | t <;>
    simp_all [recognizedShape, processResponse, bareMeta, jsAdd, jsOrNat, jsOrStr,
      commandRTokens, rType, Option.isNone_iff_eq_none] <;>
    (try (rcases hmsg : c.message with _ | msg <;> simp_all)) <;>
    (try (obtain ⟨-, rfl⟩ := hs ; simp_all [rType]))

/-- Concrete response in the first recognized shape whose token counts are
absent. -/
def koboldBareResp : LLMResponse :=
  { results := some [{ text := some "hi", prompt_tokens := none,
                       completion_tokens := none, finish_reason := none }],
    generations := none, meta := none, choices := none, usage := none,
    result := none, tokens := none, prompt_tokens := none,
    completion_tokens := none, finish_reason := none }

/-- C1 counterexample: a results-array response with both token counts
missing normalizes with a `NaN` combined token count, so the combined
numeric field does not default to `0` as claimed. -/
theorem C1_counterexample :
    processResponse koboldBareResp =
      .ok { text := "hi",
            metadata := { tokens := JsNum.nan, promptTokens := 0,
                          completionTokens := 0, finishReason := "unknown",
                          responseType := none } }
  ∧ JsNum.nan ≠ JsNum.val 0 :=
  ⟨rfl, by decide⟩

/-- Concrete response in the chat shape with every optional metadata field
absent. -/
def chatBareResp : LLMResponse :=
  { results := none, generations := none, meta := none,
    choices := some [{ message := some { content := some "ok" },
                       text := none, finish_reason := none }],
    usage := none, result := none, tokens := none, prompt_tokens := none,
    completion_tokens := none, finish_reason := none }

/-- Witness for C1 at an unrecognized response and at a bare chat-shaped
response. -/
theorem C1_normalization_defaults_witness :
    processResponse ⟨none, none, none, none, none, none, none, none, none, none⟩ =
      .error "Unsupported LLM response format"
  ∧ ∃ t, processResponse chatBareResp = .ok ⟨t,
      { tokens := if Shape.chat = Shape.koboldResults then JsNum.nan else JsNum.val 0,
        promptTokens := 0, completionTokens := 0,
        finishReason := "unknown", responseType := rType Shape.chat }⟩ :=
  ⟨(C1_normalization_defaults _).1 rfl,
   (C1_normalization_defaults chatBareResp).2 Shape.chat rfl rfl⟩

/-- Membership in a dropped-head list implies membership in the original. -/
theorem mem_of_mem_dropWhile {p : Char → Bool} :
    ∀ {l : List Char} {c : Char}, c ∈ l.dropWhile p → c ∈ l := by
  intro l
  induction l with
  | nil => intro c h; simpa using h
  | cons a rest ih =>
    intro c h
    by_cases ha : p a = true
    · simp only [List.dropWhile_cons, ha, if_true] at h
      exact List.mem_cons_of_mem a (ih h)
    · simp only [List.dropWhile_cons, ha, if_false] at h
      exact h

/-- Every character surviving the non-printable strip is printable ASCII,
newline or tab. -/
theorem mem_stripNonPrintable {c : Char} {l : List Char}
    (h : c ∈ stripNonPrintable l) :
    printableCh c = true ∨ c = '\n' ∨ c = '\t' := by
  simp only [stripNonPrintable, List.mem_map] at h
  obtain ⟨a, -, rfl⟩ := h
  by_cases hc : (printableCh a || a == '\n' || a == '\t') = true
  · rw [if_pos hc]
    simp only [Bool.or_eq_true, beq_iff_eq] at hc
    tauto
  · rw [if_neg hc]
    left
    decide

/-- Every character of a whitespace-collapsed list is a space or a
non-whitespace character of the original list. -/
theorem mem_collapseWs {c : Char} :
    ∀ {l : List Char}, c ∈ collapseWs l →
      c = ' ' ∨ (c ∈ l ∧ jsWs c = false) := by
  intro l
  induction l with
  | nil => intro h; simp [collapseWs] at h
  | cons a rest ih =>
    intro h
    cases rest with
    | nil =>
      by_cases ha : jsWs a = true
      · simp [collapseWs, ha] at h
        exact Or.inl h
      · simp [collapseWs, ha] at h
        subst h
        exact Or.inr ⟨by simp, by simpa using ha⟩
    | cons b rest2 =>
      by_cases hab : (jsWs a && jsWs b) = true
      · rw [collapseWs, if_pos hab] at h
        rcases ih h with h1 | ⟨h2, h3⟩
        · exact Or.inl h1
        · exact Or.inr ⟨List.mem_cons_of_mem a h2, h3⟩
      · rw [collapseWs, if_neg hab] at h
        by_cases ha : jsWs a = true
        · rw [if_pos ha] at h
          rcases List.mem_cons.mp h with h1 | h1
          · exact Or.inl h1
          · rcases ih h1 with h2 | ⟨h2, h3⟩
            · exact Or.inl h2
            · exact Or.inr ⟨List.mem_cons_of_mem a h2, h3⟩
        · rw [if_neg ha] at h
          rcases List.mem_cons.mp h with h1 | h1
          · refine Or.inr ⟨?_, ?_⟩
            · rw [h1]; exact List.mem_cons_self _ _
            · rw [h1]; simpa using ha
          · rcases ih h1 with h2 | ⟨h2, h3⟩
            · exact Or.inl h2
            · exact Or.inr ⟨List.mem_cons_of_mem a h2, h3⟩

/-- Trimming only removes characters. -/
theorem mem_jsTrim {c : Char} {l : List Char} (h : c ∈ jsTrim l) : c ∈ l := by
  simp only [jsTrim, List.mem_reverse] at h
  exact mem_of_mem_dropWhile (List.mem_reverse.mp (mem_of_mem_dropWhile h))

/-- C2 (amended): text containing the corruption marker token is flagged, and
the cleaning routine returns either the sentinel error text or a non-empty
printable string longer than three characters; however only the bracketed and
underscore-suffixed marker forms are stripped — a bare marker can survive in
the cleaned output — and the flat-result branch of `processResponse` returns
its text without any cleaning. -/
theorem C2_marker_cleaning :
    ∀ l : List Char, containsSub unkMarker l = true →
      cleanList l = sentinelText.toList ∨
      (3 < (cleanList l).length ∧ cleanList l ≠ [] ∧
        ∀ c ∈ cleanList l, printableCh c = true) := by
  intro l h
  have hne : l.isEmpty = false := by
    cases l with
    | nil => simp [containsSub, unkMarker] at h
    | cons a rest => rfl
  have hcor : isCorrupted l = true := by
    simp [isCorrupted, h]
  rw [cleanList]
  rw [hne, hcor]
  simp only [Bool.false_eq_true, if_false, Bool.not_true]
  by_cases h3 : 3 < (jsTrim (collapseWs (stripNonPrintable
      (removeUnderF (removeBracketF l.length l).length (removeBracketF l.length l))))).length
  · rw [if_pos h3]
    refine Or.inr ⟨h3, ?_, ?_⟩
    · intro heq
      rw [heq] at h3
      simp at h3
    · intro c hc
      rcases mem_collapseWs (mem_jsTrim hc) with h1 | ⟨h2, h4⟩
      · subst h1
        decide
      · rcases mem_stripNonPrintable h2 with h5 | h5 | h5
        · exact h5
        · subst h5
          simp [jsWs] at h4
        · subst h5
          simp [jsWs] at h4
  · rw [if_neg h3]
    exact Or.inl rfl

/-- Concrete flat-result response whose text carries the corruption marker. -/
def flatMarkerResp : LLMResponse :=
  { results := none, generations := none, meta := none, choices := none,
    usage := none, result := some "data UNK_BYTE_01 raw", tokens := none,
    prompt_tokens := none, completion_tokens := none, finish_reason := none }

/-- C2 counterexample: a bare marker (no underscore suffix) survives cleaning
verbatim, and the flat-result branch of `processResponse` returns
marker-carrying text without cleaning it, so the marker can appear in the
returned output. -/
theorem C2_counterexample :
    containsSub unkMarker ("hello UNK_BYTE world".toList) = true
  ∧ cleanList ("hello UNK_BYTE world".toList) = "hello UNK_BYTE world".toList
  ∧ containsSub unkMarker (cleanList ("hello UNK_BYTE world".toList)) = true
  ∧ processResponse flatMarkerResp =
      .ok { text := "data UNK_BYTE_01 raw",
            metadata := { tokens := JsNum.val 0, promptTokens := 0,
                          completionTokens := 0, finishReason := "unknown",
                          responseType := none } }
  ∧ containsSub unkMarker ("data UNK_BYTE_01 raw".toList) = true :=
  ⟨by decide, by decide, by decide, rfl, by decide⟩

/-- Witness for C2 at a concrete marker-carrying text. -/
theorem C2_marker_cleaning_witness :
    cleanList ("hello UNK_BYTE_x world".toList) = sentinelText.toList ∨
    (3 < (cleanList ("hello UNK_BYTE_x world".toList)).length ∧
      cleanList ("hello UNK_BYTE_x world".toList) ≠ [] ∧
      ∀ c ∈ cleanList ("hello UNK_BYTE_x world".toList), printableCh c = true) :=
  C2_marker_cleaning ("hello UNK_BYTE_x world".toList) (by decide)

/-- Endpoint candidates of one whole-chain attempt of `sendPrompt` for a
model format, in source order: the chat-completions endpoint for the mistral
format; the kobold, cohere-style and simple generation endpoints for the
command-r format; then, for every format, the kobold generation endpoint
followed by the OpenAI-compatible completions endpoint. -/
def chainEndpoints (modelFormat : String) : List String :=
  (if modelFormat = "mistral" then ["/v1/chat/completions"] else []) ++
  (if modelFormat = "command-r" then
    ["/api/v1/generate", "/v1/generate", "/generate"] else []) ++
  ["/api/v1/generate", "/v1/completions"]

/-- One whole-chain attempt of `sendPrompt`: the candidates are tried in
order, short-circuiting on the first success; every failure but the last is
swallowed by its catch, so when all candidates fail the last candidate's
error is the attempt's error.  The empty-list case is unreachable because
the chain always ends with the two default candidates. -/
def attemptChain (req : String → Except String String) :
    List String → Except String String
  | [] => .error "no candidate"
  | [e] => req e
  | e :: e2 :: rest =>
    match req e with
    | .ok v => .ok v
    | .error _ => attemptChain req (e2 :: rest)

/-- Retry loop of `sendPrompt`: `remaining` counts the retries still allowed
and `i` the current attempt index.  The result is the final outcome, the
number of whole-chain attempts made, and the list of inter-attempt delays in
milliseconds — the source sleeps a fixed 2000 ms before every attempt after
the first. -/
def spLoop (tryA : Nat → Except String String) :
    Nat → Nat → Except String String × Nat × List Nat
  | remaining, i =>
    match tryA i with
    | .ok v => (.ok v, 1, [])
    | .error e =>
      match remaining with
      | 0 => (.error e, 1, [])
      | r + 1 =>
        let next := spLoop tryA r (i + 1)
        (next.1, next.2.1 + 1, 2000 :: next.2.2)

/-- Model of `sendPrompt(port, prompt, config)` restricted to what governs
retries: an unregistered port is an immediate error with no attempt;
otherwise the whole fallback chain is attempted up to
`config.retries || 2` extra times, and only the last attempt's failure
propagates.  `req` gives the outcome of each endpoint call during a given
attempt. -/
def sendPromptModel (registered : Bool) (retriesCfg : Option Nat)
    (modelFormat : String) (req : Nat → String → Except String String) :
    Except String String × Nat × List Nat :=
  if registered then
    spLoop (fun i => attemptChain (req i) (chainEndpoints modelFormat))
      (jsOrNat retriesCfg 2) 0
  else
    (.error "No LLM instance registered on port", 0, [])

/-- Retry loop under total failure: the loop makes one attempt per unit of
remaining budget plus one, sleeps once before every attempt after the first,
and propagates the last attempt's error. -/
theorem spLoop_all_fail (tryA : Nat → Except String String)
    (err : Nat → String) (h : ∀ i, tryA i = .error (err i)) :
    ∀ rem i, spLoop tryA rem i =
      (.error (err (i + rem)), rem + 1, List.replicate rem 2000) := by
  intro rem
  induction rem with
  | zero =>
    intro i
    have hstep : spLoop tryA 0 i = (.error (err i), 1, []) := by
      rw [spLoop, h i]
    rw [hstep]
    simp
  | succ r ih =>
    intro i
    have hstep : spLoop tryA (r + 1) i =
        ((spLoop tryA r (i + 1)).1, (spLoop tryA r (i + 1)).2.1 + 1,
          2000 :: (spLoop tryA r (i + 1)).2.2) := by
      rw [spLoop, h i]
    rw [hstep, ih (i + 1)]
    have harith : i + 1 + r = i + (r + 1) := by omega
    simp [harith, List.replicate_succ]

/-- C5 (amended): with every fallback-chain candidate failing on every
attempt, `sendPrompt` makes exactly `(config.retries || 2) + 1` whole-chain
attempts — `retries + 1` for a configured `retries ≥ 1`, but three attempts
both by default and for a configured `retries = 0`, because `0` is falsy —
with a fixed 2000 ms delay before every attempt after the first, and only
the last attempt's failure propagates. -/
theorem C5_retry_exhaustion :
    (∀ (retriesCfg : Option Nat) (modelFormat : String)
        (req : Nat → String → Except String String) (err : Nat → String),
        (∀ i, attemptChain (req i) (chainEndpoints modelFormat) = .error (err i)) →
        sendPromptModel true retriesCfg modelFormat req =
          (.error (err (jsOrNat retriesCfg 2)), jsOrNat retriesCfg 2 + 1,
            List.replicate (jsOrNat retriesCfg 2) 2000))
  ∧ (∀ r : Nat, 1 ≤ r → jsOrNat (some r) 2 = r)
  ∧ jsOrNat none 2 = 2 ∧ jsOrNat (some 0) 2 = 2 := by
  refine ⟨?_, ?_, rfl, rfl⟩
  · intro retriesCfg modelFormat req err h
    simp only [sendPromptModel, if_true]
    rw [spLoop_all_fail _ err h (jsOrNat retriesCfg 2) 0]
    simp
  · intro r hr
    have hr0 : r ≠ 0 := by omega
    simp [jsOrNat, hr0]

/-- C5 counterexample: with a configured `retries = 0` and every candidate
failing, the gateway still makes three whole-chain attempts, not
`0 + 1 = 1`, and the error of the third (last) attempt propagates. -/
theorem C5_counterexample :
    (sendPromptModel true (some 0) "default"
        (fun i _ => .error (if i = 2 then "last" else "early"))).2.1 = 3
  ∧ (sendPromptModel true (some 0) "default"
        (fun i _ => .error (if i = 2 then "last" else "early"))).1 =
      .error "last"
  ∧ 3 ≠ 0 + 1 :=
  ⟨rfl, rfl, by decide⟩

/-- Witness for C5 at a concrete always-failing request oracle. -/
theorem C5_retry_exhaustion_witness :
    sendPromptModel true (some 2) "default" (fun _ _ => .error "boom") =
      (.error "boom", 3, List.replicate 2 2000) :=
  (C5_retry_exhaustion.1 (some 2) "default" (fun _ _ => .error "boom")
    (fun _ => "boom") (fun _ => rfl))

/-- String-level trim, used for the context entry pushed after each step
(`processed.text.trim()`). -/
def jsTrimStr (s : String) : String :=
  String.mk (jsTrim s.toList)

/-- Prompt block row as fetched for a payload, with its optional tag
string. -/
structure Block where
  content : String
  tags : Option String
  title : String
deriving DecidableEq

/-- Payload (step) of a workflow: identity, name and ordered blocks.  The
generation configuration it carries is consumed only by the gateway call,
which the execution model abstracts into an oracle receiving the payload. -/
structure Payload where
  id : Nat
  name : String
  blocks : List Block
deriving DecidableEq

/-- Value of a digit-run capture. -/
def digitsToNat (ds : List Char) : Nat :=
  ds.foldl (fun acc c => 10 * acc + (c.toNat - 48)) 0

/-- First match of the tag pattern `payload_` followed by digits: the first
position where the literal occurs with at least one digit after it yields
the maximal digit run there. -/
def findPayloadId : List Char → Option Nat
  | [] => none
  | c :: rest =>
    if ("payload_".toList).isPrefixOf (c :: rest) then
      let ds := ((c :: rest).drop 8).takeWhile Char.isDigit
      if ds.isEmpty then findPayloadId rest else some (digitsToNat ds)
    else findPayloadId rest

/-- Response-block resolution of the coordinator: a block whose tags contain
`response` and name a source payload is replaced by that payload's context
entry when one exists; otherwise the block is kept as stored. -/
def processBlock (ctx : List RespEntry) (b : Block) : Block :=
  match b.tags with
  | some tags =>
    if containsSub ("response".toList) tags.toList then
      match findPayloadId tags.toList with
      | some pid =>
        match ctx.find? (fun r => r.payloadId == pid) with
        | some r => { b with content := r.content }
        | none => b
      | none => b
    else b
  | none => b

/-- Prompt assembly for one payload: resolve response blocks, join the block
contents with a blank line, then run variable substitution against the
accumulated context. -/
def assemblePrompt (ctx : List RespEntry) (p : Payload) : String :=
  replaceVariables
    (String.intercalate "\n\n" ((p.blocks.map (processBlock ctx)).map Block.content))
    ctx

/-- Lifecycle events broadcast by the coordinator. -/
inductive Event where
  | progress (runId : Nat) (payloadId : Nat) (payloadName : String) (pct : ℚ)
  | payloadCompleted (runId : Nat) (payloadId : Nat) (payloadName : String) (text : String)
  | workflowCompleted (runId : Nat)
  | workflowFailed (runId : Nat) (error : String)
deriving DecidableEq

/-- Shape of an event with the response text abstracted away. -/
inductive EvSig where
  | progress (runId : Nat) (payloadId : Nat) (payloadName : String) (pct : ℚ)
  | completed (runId : Nat) (payloadId : Nat) (payloadName : String)
  | done (runId : Nat)
  | failed (runId : Nat) (error : String)
deriving DecidableEq

/-- Signature of an event. -/
def evSig : Event → EvSig
  | .progress r pid n q => .progress r pid n q
  | .payloadCompleted r pid n _ => .completed r pid n
  | .workflowCompleted r => .done r
  | .workflowFailed r e => .failed r e

/-- Stored response row. -/
structure ResultRow where
  runId : Nat
  payloadId : Nat
  content : String
deriving DecidableEq

/-- Terminal status update of a run. -/
inductive RunUpdate where
  | completed
  | failed (error : String)
deriving DecidableEq

/-- Per-step loop of `executeWorkflowAsync`: for each payload in order, a
progress event carrying `i / total * 100` and the step's name is broadcast
before anything else, the prompt is assembled from the payload's blocks and
the accumulated context, and the gateway oracle is consulted; on success the
response row is stored, the trimmed text is appended to the context and a
completion event is broadcast; the first failure stops the loop.  The oracle
abstracts `sendPrompt` composed with `processResponse` and receives the step
index, the payload and the assembled prompt. -/
def runSteps (runId : Nat) (gw : Nat → Payload → String → Except String String)
    (total : Nat) :
    Nat → List RespEntry → List Payload →
      List Event × List ResultRow × Option String
  | _, _, [] => ([], [], none)
  | i, ctx, p :: rest =>
    let prompt := assemblePrompt ctx p
    let ev0 := Event.progress runId p.id p.name ((i : ℚ) / (total : ℚ) * 100)
    match gw i p prompt with
    | .error e => ([ev0], [], some e)
    | .ok text =>
      let next := runSteps runId gw total (i + 1)
        (ctx ++ [⟨p.id, p.name, jsTrimStr text⟩]) rest
      (ev0 :: Event.payloadCompleted runId p.id p.name text :: next.1,
        ⟨runId, p.id, text⟩ :: next.2.1, next.2.2)

/-- Model of `executeWorkflowAsync`: the per-step loop followed by the
terminal transition — on success one completed update and a completion
event, on failure one failed update carrying the exception message verbatim
and one failure event.  The broadcast function is assumed injected; stored
rows are never removed. -/
def execWorkflowAsync (runId : Nat) (payloads : List Payload)
    (gw : Nat → Payload → String → Except String String) :
    List Event × List ResultRow × List RunUpdate :=
  let r := runSteps runId gw payloads.length 0 [] payloads
  match r.2.2 with
  | none => (r.1 ++ [Event.workflowCompleted runId], r.2.1, [RunUpdate.completed])
  | some e => (r.1 ++ [Event.workflowFailed runId e], r.2.1, [RunUpdate.failed e])

/-- Response of the start route. -/
inductive StartResp where
  | badRequest (msg : String)
  | notFound (msg : String)
  | accepted (runId : Nat) (message : String) (status : String)
deriving DecidableEq

/-- Run row as created by the start route. -/
structure RunRow where
  workflowId : Nat
  status : String
deriving DecidableEq

/-- Model of the start route: a missing (or zero, hence falsy) workflow id
is rejected with 400; an unknown workflow id is rejected with 404; a
workflow without payloads is rejected with 400; in each of these cases no
run row is written and execution never starts.  Otherwise a run row with
status `running` is inserted and the generated identifier is returned while
the payloads execute asynchronously (third component). -/
def startRoute (workflowId : Option Nat) (dbWorkflow : Option String)
    (payloads : List Payload) (nextRunId : Nat) :
    StartResp × Option RunRow × Bool :=
  match workflowId with
  | none => (.badRequest "Workflow ID is required", none, false)
  | some wid =>
    if wid = 0 then (.badRequest "Workflow ID is required", none, false)
    else
      match dbWorkflow with
      | none => (.notFound "Workflow not found", none, false)
      | some _ =>
        if payloads.isEmpty then
          (.badRequest "Workflow has no payloads to execute", none, false)
        else
          (.accepted nextRunId "Workflow execution started" "running",
            some ⟨wid, "running"⟩, true)

/-- Per-step loop under an always-succeeding gateway: the events are exactly
one progress/completed pair per payload, in order, and no error is
reported. -/
theorem runSteps_all_ok (runId : Nat) (gw : Nat → Payload → String → Except String String)
    (total : Nat) (h : ∀ i p prompt, ∃ t, gw i p prompt = .ok t) :
    ∀ (payloads : List Payload) (i : Nat) (ctx : List RespEntry),
      (runSteps runId gw total i ctx payloads).1.map evSig =
        (List.enumFrom i payloads).flatMap (fun ip =>
          [EvSig.progress runId ip.2.id ip.2.name ((ip.1 : ℚ) / (total : ℚ) * 100),
           EvSig.completed runId ip.2.id ip.2.name]) ∧
      (runSteps runId gw total i ctx payloads).2.2 = none := by
  intro payloads
  induction payloads with
  | nil => intro i ctx; constructor <;> rfl
  | cons p rest ih =>
    intro i ctx
    obtain ⟨t, ht⟩ := h i p (assemblePrompt ctx p)
    obtain ⟨ih1, ih2⟩ := ih (i + 1) (ctx ++ [⟨p.id, p.name, jsTrimStr t⟩])
    simp only [runSteps, ht]
    constructor
    · simp only [List.map_cons, evSig, ih1]
      rfl
    · exact ih2

/-- Per-step loop in general: some prefix of the payloads is executed, rows
are stored one-to-one with that prefix in order, and the loop ends without
error exactly when the prefix is everything. -/
theorem runSteps_rows (runId : Nat) (gw : Nat → Payload → String → Except String String)
    (total : Nat) :
    ∀ (payloads : List Payload) (i : Nat) (ctx : List RespEntry),
      ∃ k, k ≤ payloads.length ∧
        (runSteps runId gw total i ctx payloads).2.1.map ResultRow.payloadId =
          (payloads.take k).map Payload.id ∧
        (runSteps runId gw total i ctx payloads).2.1.length = k ∧
        (((runSteps runId gw total i ctx payloads).2.2 = none ∧ k = payloads.length) ∨
          (∃ e, (runSteps runId gw total i ctx payloads).2.2 = some e ∧
            k < payloads.length)) := by
  intro payloads
  induction payloads with
  | nil =>
    intro i ctx
    exact ⟨0, by simp [runSteps]⟩
  | cons p rest ih =>
    intro i ctx
    cases hgw : gw i p (assemblePrompt ctx p) with
    | error e =>
      refine ⟨0, by simp, ?_, ?_, ?_⟩ <;> simp [runSteps, hgw]
    | ok t =>
      obtain ⟨k, hk, hmap, hlen, hterm⟩ := ih (i + 1) (ctx ++ [⟨p.id, p.name, jsTrimStr t⟩])
      refine ⟨k + 1, by simpa using hk, ?_, ?_, ?_⟩
      · simp only [runSteps, hgw, List.map_cons, List.take_succ_cons]
        rw [hmap]
      · simp only [runSteps, hgw, List.length_cons]
        rw [hlen]
      · rcases hterm with ⟨h1, h2⟩ | ⟨e, h1, h2⟩
        · left
          constructor
          · simp only [runSteps, hgw]
            exact h1
          · simp [h2]
        · right
          refine ⟨e, ?_, ?_⟩
          · simp only [runSteps, hgw]
            exact h1
          · simp only [List.length_cons]
            omega

/-- Length of the event block produced per executed step. -/
theorem flatMapPairs_length (runId : Nat) (total : Nat) :
    ∀ (l : List (Nat × Payload)),
      (l.flatMap (fun ip =>
        [EvSig.progress runId ip.2.id ip.2.name ((ip.1 : ℚ) / (total : ℚ) * 100),
         EvSig.completed runId ip.2.id ip.2.name])).length = 2 * l.length := by
  intro l
  induction l with
  | nil => simp
  | cons a l ih =>
    simp [List.flatMap_cons, ih]
    omega

/-- C6: a pipeline of N steps executed without failure emits exactly N
progress/completed pairs in strict alternation — the i-th progress event
carrying `i / N * 100` and the step's name, issued before the step runs —
followed by exactly one workflow-completed event, for a total of 2N + 1
events. -/
theorem C6_event_sequence :
    ∀ (runId : Nat) (payloads : List Payload)
      (gw : Nat → Payload → String → Except String String),
      (∀ i p prompt, ∃ t, gw i p prompt = .ok t) →
      (execWorkflowAsync runId payloads gw).1.map evSig =
        payloads.enum.flatMap (fun ip =>
          [EvSig.progress runId ip.2.id ip.2.name
            ((ip.1 : ℚ) / ((payloads.length : Nat) : ℚ) * 100),
           EvSig.completed runId ip.2.id ip.2.name]) ++ [EvSig.done runId]
      ∧ (execWorkflowAsync runId payloads gw).1.length = 2 * payloads.length + 1 := by
  intro runId payloads gw h
  obtain ⟨h1, h2⟩ := runSteps_all_ok runId gw payloads.length h payloads 0 []
  have hx : execWorkflowAsync runId payloads gw =
      ((runSteps runId gw payloads.length 0 [] payloads).1 ++
        [Event.workflowCompleted runId],
        (runSteps runId gw payloads.length 0 [] payloads).2.1,
        [RunUpdate.completed]) := by
    simp only [execWorkflowAsync, h2]
  constructor
  · rw [hx]
    simp only [List.map_append, h1, List.map_cons, List.map_nil, evSig, List.enum]
  · rw [hx]
    simp only [List.length_append]
    have hcnt : (runSteps runId gw payloads.length 0 [] payloads).1.length =
        ((runSteps runId gw payloads.length 0 [] payloads).1.map evSig).length := by
      rw [List.length_map]
    rw [hcnt, h1, flatMapPairs_length]
    simp [List.enumFrom_length]

/-- Witness for C6: a three-step pipeline with an always-succeeding gateway
emits exactly the seven expected events. -/
theorem C6_event_sequence_witness :
    ((execWorkflowAsync 7 [⟨1, "step1", []⟩, ⟨2, "step2", []⟩, ⟨3, "step3", []⟩]
        (fun _ _ _ => .ok "T")).1.map evSig =
      [EvSig.progress 7 1 "step1" 0, EvSig.completed 7 1 "step1",
       EvSig.progress 7 2 "step2" (100 / 3), EvSig.completed 7 2 "step2",
       EvSig.progress 7 3 "step3" (200 / 3), EvSig.completed 7 3 "step3",
       EvSig.done 7])
  ∧ (execWorkflowAsync 7 [⟨1, "step1", []⟩, ⟨2, "step2", []⟩, ⟨3, "step3", []⟩]
        (fun _ _ _ => .ok "T")).1.length = 7 := by
  have h := C6_event_sequence 7
    [⟨1, "step1", []⟩, ⟨2, "step2", []⟩, ⟨3, "step3", []⟩]
    (fun _ _ _ => .ok "T") (fun _ _ _ => ⟨"T", rfl⟩)
  refine ⟨?_, h.2⟩
  rw [h.1]
  norm_num [List.enum, List.enumFrom, List.flatMap_cons]

/-- Per-step loop when the gateway succeeds for every index before `k` and
fails at `k`: the executed prefix produces its event pairs and rows, the
failing step produces its progress event only, and the failure is
reported. -/
theorem runSteps_fail (runId : Nat) (gw : Nat → Payload → String → Except String String)
    (total : Nat) (e : String) :
    ∀ (pre : List Payload) (pfail : Payload) (post : List Payload)
      (i : Nat) (ctx : List RespEntry),
      (∀ j p prompt, j < i + pre.length → ∃ t, gw j p prompt = .ok t) →
      (∀ p prompt, gw (i + pre.length) p prompt = .error e) →
      (runSteps runId gw total i ctx (pre ++ pfail :: post)).1.map evSig =
        (List.enumFrom i pre).flatMap (fun ip =>
          [EvSig.progress runId ip.2.id ip.2.name ((ip.1 : ℚ) / (total : ℚ) * 100),
           EvSig.completed runId ip.2.id ip.2.name]) ++
          [EvSig.progress runId pfail.id pfail.name
            (((i + pre.length : Nat) : ℚ) / (total : ℚ) * 100)] ∧
      (runSteps runId gw total i ctx (pre ++ pfail :: post)).2.1.map ResultRow.payloadId =
        pre.map Payload.id ∧
      (runSteps runId gw total i ctx (pre ++ pfail :: post)).2.1.length = pre.length ∧
      (runSteps runId gw total i ctx (pre ++ pfail :: post)).2.2 = some e := by
  intro pre
  induction pre with
  | nil =>
    intro pfail post i ctx hok hfail
    have hf := hfail pfail (assemblePrompt ctx pfail)
    simp only [List.length_nil, Nat.add_zero] at hf
    simp [runSteps, hf, evSig]
  | cons p pre ih =>
    intro pfail post i ctx hok hfail
    obtain ⟨t, ht⟩ := hok i p (assemblePrompt ctx p) (by simp)
    have hok2 : ∀ j p2 prompt, j < (i + 1) + pre.length → ∃ t2, gw j p2 prompt = .ok t2 := by
      intro j p2 prompt hj
      refine hok j p2 prompt ?_
      simp only [List.length_cons]
      omega
    have hfail2 : ∀ p2 prompt, gw ((i + 1) + pre.length) p2 prompt = .error e := by
      intro p2 prompt
      have harith : (i + 1) + pre.length = i + (p :: pre).length := by
        simp only [List.length_cons]
        omega
      rw [harith]
      exact hfail p2 prompt
    obtain ⟨ih1, ih2, ih3, ih4⟩ :=
      ih pfail post (i + 1) (ctx ++ [⟨p.id, p.name, jsTrimStr t⟩]) hok2 hfail2
    simp only [List.cons_append, runSteps, ht]
    refine ⟨?_, ?_, ?_, ?_⟩
    · simp only [List.map_cons, evSig, List.append_eq, ih1]
      have harith : i + (p :: pre).length = (i + 1) + pre.length := by
        simp only [List.length_cons]
        omega
      rw [harith]
      simp [List.flatMap_cons, List.cons_append, List.append_assoc]
    · simp only [List.map_cons, List.append_eq, ih2]
    · simp only [List.length_cons, List.append_eq, ih3]
    · exact ih4

/-- C7: when some step's gateway call raises while every earlier step
succeeded, the run is marked failed exactly once with the exception message
stored verbatim, exactly one workflow-failed event carrying that message is
emitted after the failing step's progress event, the remaining steps are
skipped, and every already-stored result row is kept. -/
theorem C7_failure_handling :
    ∀ (runId : Nat) (pre : List Payload) (pfail : Payload) (post : List Payload)
      (gw : Nat → Payload → String → Except String String) (e : String),
      (∀ j p prompt, j < pre.length → ∃ t, gw j p prompt = .ok t) →
      (∀ p prompt, gw pre.length p prompt = .error e) →
      (execWorkflowAsync runId (pre ++ pfail :: post) gw).1.map evSig =
        pre.enum.flatMap (fun ip =>
          [EvSig.progress runId ip.2.id ip.2.name
            ((ip.1 : ℚ) / (((pre ++ pfail :: post).length : Nat) : ℚ) * 100),
           EvSig.completed runId ip.2.id ip.2.name]) ++
          [EvSig.progress runId pfail.id pfail.name
            ((pre.length : ℚ) / (((pre ++ pfail :: post).length : Nat) : ℚ) * 100),
           EvSig.failed runId e] ∧
      (execWorkflowAsync runId (pre ++ pfail :: post) gw).2.2 = [RunUpdate.failed e] ∧
      (execWorkflowAsync runId (pre ++ pfail :: post) gw).2.1.map ResultRow.payloadId =
        pre.map Payload.id ∧
      (execWorkflowAsync runId (pre ++ pfail :: post) gw).2.1.length = pre.length := by
  intro runId pre pfail post gw e hok hfail
  have hok0 : ∀ j p prompt, j < 0 + pre.length → ∃ t, gw j p prompt = .ok t := by
    intro j p prompt hj
    exact hok j p prompt (by omega)
  have hfail0 : ∀ p prompt, gw (0 + pre.length) p prompt = .error e := by
    intro p prompt
    have h0 : 0 + pre.length = pre.length := by omega
    rw [h0]
    exact hfail p prompt
  obtain ⟨h1, h2, h3, h4⟩ := runSteps_fail runId gw (pre ++ pfail :: post).length e
    pre pfail post 0 [] hok0 hfail0
  have hx : execWorkflowAsync runId (pre ++ pfail :: post) gw =
      ((runSteps runId gw (pre ++ pfail :: post).length 0 [] (pre ++ pfail :: post)).1 ++
        [Event.workflowFailed runId e],
        (runSteps runId gw (pre ++ pfail :: post).length 0 [] (pre ++ pfail :: post)).2.1,
        [RunUpdate.failed e]) := by
    simp only [execWorkflowAsync, h4]
  rw [hx]
  refine ⟨?_, rfl, h2, h3⟩
  simp only [List.map_append, h1, List.map_cons, List.map_nil, evSig, List.enum]
  have h0 : (0 : Nat) + pre.length = pre.length := by omega
  rw [h0]
  simp [List.append_assoc]

/-- Witness for C7: a two-step pipeline whose second step fails emits the
first step's pair, the second step's progress event and one failure event,
stores one row, and records one failed update carrying the message. -/
theorem C7_failure_handling_witness :
    (execWorkflowAsync 9 [⟨1, "a", []⟩, ⟨2, "b", []⟩]
        (fun i _ _ => if i = 0 then .ok "T" else .error "boom")).1.map evSig =
      [EvSig.progress 9 1 "a" 0, EvSig.completed 9 1 "a",
       EvSig.progress 9 2 "b" 50, EvSig.failed 9 "boom"]
  ∧ (execWorkflowAsync 9 [⟨1, "a", []⟩, ⟨2, "b", []⟩]
        (fun i _ _ => if i = 0 then .ok "T" else .error "boom")).2.2 =
      [RunUpdate.failed "boom"]
  ∧ (execWorkflowAsync 9 [⟨1, "a", []⟩, ⟨2, "b", []⟩]
        (fun i _ _ => if i = 0 then .ok "T" else .error "boom")).2.1.map
      ResultRow.payloadId = [1] := by
  have h := C7_failure_handling 9 [⟨1, "a", []⟩] ⟨2, "b", []⟩ []
    (fun i _ _ => if i = 0 then .ok "T" else .error "boom") "boom"
    (fun j p prompt hj => ⟨"T", by
      have hj0 : j = 0 := by simpa using hj
      simp [hj0]⟩)
    (fun p prompt => rfl)
  simp only [List.cons_append, List.nil_append] at h
  refine ⟨?_, h.2.1, ?_⟩
  · rw [h.1]
    norm_num [List.enum, List.enumFrom, List.flatMap_cons]
  · rw [h.2.2.1]
    decide

/-- C8 (amended): a start request naming an unknown pipeline fails with a
not-found (404) condition; a pipeline with zero steps fails with a
validation (400) condition, not a not-found one; in both cases no run row
is written; a valid pipeline with at least one step gets a run row with
status `running` and the generated run identifier is returned while the
steps execute asynchronously. -/
theorem C8_start_validation :
    (∀ (wid : Nat) (payloads : List Payload) (nid : Nat), wid ≠ 0 →
        startRoute (some wid) none payloads nid =
          (.notFound "Workflow not found", none, false))
  ∧ (∀ (wid : Nat) (wf : String) (nid : Nat), wid ≠ 0 →
        startRoute (some wid) (some wf) [] nid =
          (.badRequest "Workflow has no payloads to execute", none, false))
  ∧ (∀ (wid : Nat) (wf : String) (payloads : List Payload) (nid : Nat),
        wid ≠ 0 → payloads ≠ [] →
        startRoute (some wid) (some wf) payloads nid =
          (.accepted nid "Workflow execution started" "running",
            some ⟨wid, "running"⟩, true)) := by
  refine ⟨?_, ?_, ?_⟩
  · intro wid payloads nid h
    simp [startRoute, h]
  · intro wid wf nid h
    simp [startRoute, h]
  · intro wid wf payloads nid h hp
    simp [startRoute, h, hp]

/-- C8 counterexample: a pipeline that exists but has zero steps is rejected
with the 400 validation response, which is not a not-found response. -/
theorem C8_counterexample :
    (startRoute (some 1) (some "wf") [] 2).1 =
      StartResp.badRequest "Workflow has no payloads to execute"
  ∧ ∀ m, (startRoute (some 1) (some "wf") [] 2).1 ≠ StartResp.notFound m := by
  refine ⟨rfl, ?_⟩
  intro m h
  simp [startRoute] at h

/-- Witness for C8 at a concrete unknown pipeline, a concrete zero-step
pipeline and a concrete valid pipeline. -/
theorem C8_start_validation_witness :
    startRoute (some 5) none [] 9 = (.notFound "Workflow not found", none, false)
  ∧ startRoute (some 5) (some "wf") [] 9 =
      (.badRequest "Workflow has no payloads to execute", none, false)
  ∧ startRoute (some 5) (some "wf") [⟨1, "a", []⟩] 9 =
      (.accepted 9 "Workflow execution started" "running",
        some ⟨5, "running"⟩, true) :=
  ⟨C8_start_validation.1 5 [] 9 (by decide),
   C8_start_validation.2.1 5 "wf" 9 (by decide),
   C8_start_validation.2.2 5 "wf" [⟨1, "a", []⟩] 9 (by decide) (by simp)⟩

/-- C9: for every gateway behavior, the run receives exactly one terminal
status update, the stored result rows correspond one-to-one and in order to
the executed prefix of the pipeline's steps, a completed run has exactly as
many rows as steps, and a failed run has strictly fewer rows than steps. -/
theorem C9_run_invariants :
    ∀ (runId : Nat) (payloads : List Payload)
      (gw : Nat → Payload → String → Except String String),
      (execWorkflowAsync runId payloads gw).2.2.length = 1 ∧
      ∃ k, k ≤ payloads.length ∧
        (execWorkflowAsync runId payloads gw).2.1.map ResultRow.payloadId =
          (payloads.take k).map Payload.id ∧
        (execWorkflowAsync runId payloads gw).2.1.length = k ∧
        (((execWorkflowAsync runId payloads gw).2.2 = [RunUpdate.completed] ∧
            k = payloads.length) ∨
          (∃ e, (execWorkflowAsync runId payloads gw).2.2 = [RunUpdate.failed e] ∧
            k < payloads.length)) := by
  intro runId payloads gw
  obtain ⟨k, hk, hmap, hlen, hterm⟩ :=
    runSteps_rows runId gw payloads.length payloads 0 []
  rcases hterm with ⟨h1, h2⟩ | ⟨e, h1, h2⟩
  · have hx : execWorkflowAsync runId payloads gw =
        ((runSteps runId gw payloads.length 0 [] payloads).1 ++
          [Event.workflowCompleted runId],
          (runSteps runId gw payloads.length 0 [] payloads).2.1,
          [RunUpdate.completed]) := by
      simp only [execWorkflowAsync, h1]
    rw [hx]
    exact ⟨rfl, k, hk, hmap, hlen, Or.inl ⟨rfl, h2⟩⟩
  · have hx : execWorkflowAsync runId payloads gw =
        ((runSteps runId gw payloads.length 0 [] payloads).1 ++
          [Event.workflowFailed runId e],
          (runSteps runId gw payloads.length 0 [] payloads).2.1,
          [RunUpdate.failed e]) := by
      simp only [execWorkflowAsync, h1]
    rw [hx]
    exact ⟨rfl, k, hk, hmap, hlen, Or.inr ⟨e, rfl, h2⟩⟩

end LLMOrch
